import Mathlib

set_option linter.unusedVariables false
set_option linter.unnecessarySeqFocus false

/-!
Shallow embedding of src/IoT_Environment_Sensor/aio.py: the startup
configuration check, and the AIO class methods connect, post and
refresh_local_time.  The network environment is modelled explicitly:
the outcome of each transport attempt (HTTP POST / WiFi association)
is an input to the embedded function.
-/

namespace Aio

/-- Outcome of one call to the HTTP POST primitive (requests.post):
either an HTTP response is received, with its status code and a flag
saying whether decoding its body as JSON (r.json(), called while
logging) succeeds, or the primitive raises a transport-level
RuntimeError. -/
inductive AttemptOutcome where
  | response (status : Nat) (jsonOk : Bool)
  | transportError
deriving DecidableEq, Repr

/-- Observable side-effect events of post: a call to self.connect(),
one transport attempt (call to requests.post, numbered from 0), or a
hard radio reset (self.esp.reset()). -/
inductive Event where
  | connectCall
  | attempt (i : Nat)
  | reset
deriving DecidableEq, Repr

/-- How a call to post ends: it returns a boolean, or an exception that
is not a transport-level RuntimeError (e.g. a JSON decode error raised
by r.json()) propagates out of it. -/
inductive PostResult where
  | ret (b : Bool)
  | raised
deriving DecidableEq, Repr

/-- The while-loop of AIO.post (aio.py lines 101-120), with the event
trace it produces.  The source guard is tries == 5, checked before each
attempt; tries starts at 0 and grows by exactly 1 per iteration, so at
the guard tries is at most 5 and the check is equivalent to 5 <= tries,
the form the termination checker needs.  Attempt number tries receives
the environment outcome outcomes tries.  On a received response the
loop logs the status code and r.json() (eagerly evaluated logger
arguments, in both the 200 and the non-200 branch) and breaks; post
then returns (r.status_code == 200).  On a RuntimeError the loop resets
the radio, reconnects, and continues. -/
def post_go (outcomes : Nat → AttemptOutcome) (tries : Nat) :
    List Event × PostResult :=
  if 5 ≤ tries then ([], .ret false)
  else
    match outcomes tries with
    | .response status jsonOk =>
        ([.attempt tries], if jsonOk then .ret (status == 200) else .raised)
    | .transportError =>
        let rest := post_go outcomes (tries + 1)
        (.attempt tries :: .reset :: .connectCall :: rest.1, rest.2)
termination_by 5 - tries
decreasing_by omega

/-- AIO.post (aio.py lines 93-120).  feed and payload only enter the
URL, the auth header and the log lines, none of which affect control
flow; they are kept as arguments for faithfulness.  post first calls
self.connect(), then runs the retry loop. -/
def post (feed payload : String) (outcomes : Nat → AttemptOutcome) :
    List Event × PostResult :=
  let go := post_go outcomes 0
  (.connectCall :: go.1, go.2)

/-- The value post returns (or the fact that it raised). -/
def post_result (feed payload : String) (outcomes : Nat → AttemptOutcome) :
    PostResult :=
  (post feed payload outcomes).2

/-- The event trace of a call to post. -/
def post_trace (feed payload : String) (outcomes : Nat → AttemptOutcome) :
    List Event :=
  (post feed payload outcomes).1

/-- Number of transport attempts recorded in a trace. -/
def attemptCount : List Event → Nat
  | [] => 0
  | .attempt _ :: tr => attemptCount tr + 1
  | _ :: tr => attemptCount tr

/-- The while-loop of AIO.connect (aio.py lines 84-91), run for at most
fuel iterations.  connected is the value of self.esp.is_connected;
attempt number a of self.esp.connect_AP succeeds iff outcomes a, and a
successful attempt makes is_connected true; a failed attempt raises a
RuntimeError which the loop catches, logs and retries unconditionally.
Returns some n when the loop exits having made n association attempts,
none when fuel iterations did not suffice (the loop is still running:
the source loop has no exit on failure). -/
def connect_run (outcomes : Nat → Bool) :
    Bool → Nat → Nat → Option Nat
  | _, _, 0 => none
  | connected, attempts, fuel + 1 =>
      if connected then some attempts
      else connect_run outcomes (outcomes attempts) (attempts + 1) fuel

/-- Python exceptions that the embedded code can raise or catch.
KeyError carries whether it was re-raised with the guidance message of
the except-clause in refresh_local_time (aio.py line 152). -/
inductive PyError where
  | keyError (withGuidance : Bool)
  | indexError
  | valueError
deriving DecidableEq, Repr

/-- Python list indexing l[i]: raises IndexError when i is out of
range. -/
def listGet (l : List String) (i : Nat) : Except PyError String :=
  match l.get? i with
  | some v => .ok v
  | none => .error .indexError

/-- Python str.split(sep) for a single-character separator, on the
character list of the string: split at every separator occurrence,
keeping empty pieces, so that splitting the empty string yields one
empty piece — exactly the semantics the source relies on. -/
def pySplitAux (sep : Char) : List Char → List Char → List String
  | [], acc => [String.mk acc.reverse]
  | c :: cs, acc =>
      if c = sep then String.mk acc.reverse :: pySplitAux sep cs []
      else pySplitAux sep cs (c :: acc)

/-- Python str.split(sep) for a single-character separator — the only
kind the source uses (space, minus, dot, colon). -/
def pySplit (sep : Char) (s : String) : List String :=
  pySplitAux sep s.data []

/-- Value of a nonempty all-digit character string, none otherwise. -/
def pyDigitsVal (cs : List Char) : Option Int :=
  if cs ≠ [] ∧ cs.all Char.isDigit then
    some (cs.foldl (fun acc c => 10 * acc + ((c.toNat : Int) - 48)) 0)
  else none

/-- Python int(s) on decimal strings: surrounding whitespace is
stripped, one optional leading sign is allowed, the rest must be a
nonempty digit string (underscore separators and non-ASCII digits,
which the time-service responses never contain, are not modelled).
Returns none when int() would raise ValueError. -/
def pyInt (s : String) : Option Int :=
  let t := ((s.data.dropWhile Char.isWhitespace).reverse.dropWhile
    Char.isWhitespace).reverse
  match t with
  | '-' :: rest => (pyDigitsVal rest).map (fun v => -v)
  | '+' :: rest => pyDigitsVal rest
  | _ => pyDigitsVal t

/-- Python int(s) as an exception-raising computation. -/
def pyIntE (s : String) : Except PyError Int :=
  match pyInt s with
  | some n => .ok n
  | none => .error .valueError

/-- The nine fields of time.struct_time, in source order: aio.py line
156 builds (year, month, mday, hours, minutes, seconds, week_day,
year_day, is_dst), so week_day lands in tm_wday and year_day in
tm_yday; is_dst is None. -/
structure PyStructTime where
  tm_year : Int
  tm_mon : Int
  tm_mday : Int
  tm_hour : Int
  tm_min : Int
  tm_sec : Int
  tm_wday : Int
  tm_yday : Int
  tm_isdst : Option Int
deriving DecidableEq, Repr

/-- What a successful refresh_local_time call does: the struct_time it
assigns to rtc.RTC().datetime (aio.py line 158) and the one it returns
(line 165); the source assigns and returns the same value now. -/
structure RefreshResult where
  rtcWrite : PyStructTime
  returned : PyStructTime
deriving DecidableEq, Repr

/-- The try-block of AIO.refresh_local_time (aio.py lines 141-150)
from the point where the response text is available: split the body on
single spaces (Python str.split with an explicit separator keeps empty
fields, and splitting the empty string yields one empty field), then
index fields 0-3, converting fields 2 and 3 with int().  Indexing
raises IndexError, int() raises ValueError; nothing in the block can
raise KeyError. -/
def refresh_try_block (text : String) :
    Except PyError (String × String × Int × Int) := do
  let times := pySplit ' ' text
  let the_date ← listGet times 0
  let the_time ← listGet times 1
  let year_day ← pyIntE (← listGet times 2)
  let week_day ← pyIntE (← listGet times 3)
  .ok (the_date, the_time, year_day, week_day)

/-- AIO.refresh_local_time (aio.py lines 123-165), as a function of the
time-service response text.  The except-clause catches only KeyError
and re-raises it with guidance to check the timezone setting; every
other exception from the try-block propagates unchanged.  After the
try-block (outside it), the date field is split on the minus sign and
the time field, stripped of its sub-second part, on the colon; each
piece goes through int() and the tuple unpacking demands exactly three
pieces (otherwise Python raises ValueError).  The resulting struct_time
is written to the RTC and returned. -/
def refresh_local_time (text : String) : Except PyError RefreshResult := do
  let (the_date, the_time, year_day, week_day) ←
    match refresh_try_block text with
    | .error (.keyError _) => .error (.keyError true)
    | r => r
  let dateParts ← (pySplit '-' the_date).mapM pyIntE
  let (year, month, mday) ←
    match dateParts with
    | [y, m, d] => Except.ok (y, m, d)
    | _ => .error .valueError
  let the_time2 ← listGet (pySplit '.' the_time) 0
  let timeParts ← (pySplit ':' the_time2).mapM pyIntE
  let (hours, minutes, seconds) ←
    match timeParts with
    | [h, m, s] => Except.ok (h, m, s)
    | _ => .error .valueError
  let now : PyStructTime :=
    { tm_year := year, tm_mon := month, tm_mday := mday, tm_hour := hours,
      tm_min := minutes, tm_sec := seconds, tm_wday := week_day,
      tm_yday := year_day, tm_isdst := none }
  .ok { rtcWrite := now, returned := now }

/-- The module-level startup check (aio.py lines 43-54): the four
getenv results, each None when unset, are gathered in a list and the
module raises a RuntimeError iff None is among them — Python tests
None in [ssid, password, aio_username, aio_key].  The class AIO is
defined only after this check, so when it raises, no client can be
constructed. -/
def startup_raises (ssid password aio_username aio_key : Option String) :
    Bool :=
  [ssid, password, aio_username, aio_key].any fun v => v == none

/-!
Helper lemmas.  err_blocks is the trace fragment produced by a run of
consecutive transport-error attempts: each one is followed by exactly
one radio reset and one reconnect.
-/

/-- Trace fragment of n consecutive transport-error attempts starting
at attempt number t. -/
def err_blocks : Nat → Nat → List Event
  | _, 0 => []
  | t, n + 1 =>
      .attempt t :: .reset :: .connectCall :: err_blocks (t + 1) n

theorem attemptCount_append (a b : List Event) :
    attemptCount (a ++ b) = attemptCount a + attemptCount b := by
  induction a with
  | nil => simp [attemptCount]
  | cons e tr ih => cases e <;> simp [attemptCount, ih] <;> omega

theorem attemptCount_err_blocks (n t : Nat) :
    attemptCount (err_blocks t n) = n := by
  induction n generalizing t with
  | zero => simp [err_blocks, attemptCount]
  | succ n ih => simp [err_blocks, attemptCount, ih]

theorem attempt_mem_err_blocks (k : Nat) :
    ∀ (n t : Nat), Event.attempt k ∈ err_blocks t n ↔ (t ≤ k ∧ k < t + n) := by
  intro n
  induction n with
  | zero => intro t; simp [err_blocks]
  | succ n ih =>
      intro t
      simp [err_blocks, ih (t + 1)]
      omega

theorem err_blocks_split (i : Nat) :
    ∀ (n t : Nat), i < n →
      err_blocks t n =
        err_blocks t i ++ Event.attempt (t + i) :: Event.reset ::
          Event.connectCall :: err_blocks (t + i + 1) (n - i - 1) := by
  induction i with
  | zero =>
      intro n t hi
      match n, hi with
      | n + 1, _ => simp [err_blocks]
  | succ i ih =>
      intro n t hi
      match n, hi with
      | n + 1, hi =>
        have h1 : i < n := by omega
        calc err_blocks t (n + 1)
            = Event.attempt t :: Event.reset :: Event.connectCall ::
                err_blocks (t + 1) n := rfl
          _ = Event.attempt t :: Event.reset :: Event.connectCall ::
                (err_blocks (t + 1) i ++ Event.attempt (t + 1 + i) ::
                  Event.reset :: Event.connectCall ::
                  err_blocks (t + 1 + i + 1) (n - i - 1)) := by
                rw [ih n (t + 1) h1]
          _ = err_blocks t (i + 1) ++ Event.attempt (t + (i + 1)) ::
                Event.reset :: Event.connectCall ::
                err_blocks (t + (i + 1) + 1) (n + 1 - (i + 1) - 1) := by
                have e1 : t + 1 + i = t + (i + 1) := by omega
                have e3 : n - i - 1 = n + 1 - (i + 1) - 1 := by omega
                rw [e1, e3]
                rfl

/-- Trace and result of the retry loop when the first n attempts
starting at tries raise transport errors and attempt tries + n then
receives a response, all within the budget. -/
theorem post_go_response (outcomes : Nat → AttemptOutcome) :
    ∀ (n tries s : Nat) (j : Bool), tries + n < 5 →
      (∀ i < n, outcomes (tries + i) = .transportError) →
      outcomes (tries + n) = .response s j →
      post_go outcomes tries =
        (err_blocks tries n ++ [.attempt (tries + n)],
         if j then .ret (s == 200) else .raised) := by
  intro n
  induction n with
  | zero =>
      intro tries s j hlt hpre hres
      rw [post_go]
      rw [if_neg (by omega)]
      simp only [Nat.add_zero] at hres
      rw [hres]
      rfl
  | succ n ih =>
      intro tries s j hlt hpre hres
      have h0 : outcomes tries = .transportError := by
        have := hpre 0 (Nat.succ_pos n)
        simpa using this
      rw [post_go]
      rw [if_neg (by omega)]
      rw [h0]
      have ihx := ih (tries + 1) s j (by omega)
        (fun i hi => by
          have := hpre (i + 1) (by omega)
          simpa [Nat.add_assoc, Nat.add_comm 1 i] using this)
        (by
          have : tries + 1 + n = tries + (n + 1) := by omega
          rw [this, hres])
      rw [ihx]
      have e1 : tries + 1 + n = tries + (n + 1) := by omega
      rw [e1]
      rfl

/-- Trace and result of the retry loop when every attempt from tries
up to the budget raises a transport error: the loop gives up and
returns false. -/
theorem post_go_all_err (outcomes : Nat → AttemptOutcome) :
    ∀ (n tries : Nat), tries + n = 5 →
      (∀ i < n, outcomes (tries + i) = .transportError) →
      post_go outcomes tries = (err_blocks tries n, .ret false) := by
  intro n
  induction n with
  | zero =>
      intro tries hlt hpre
      rw [post_go]
      rw [if_pos (by omega)]
      simp [err_blocks]
  | succ n ih =>
      intro tries hlt hpre
      have h0 : outcomes tries = .transportError := by
        have := hpre 0 (Nat.succ_pos n)
        simpa using this
      rw [post_go]
      rw [if_neg (by omega)]
      rw [h0]
      have ihx := ih (tries + 1) (by omega)
        (fun i hi => by
          have := hpre (i + 1) (by omega)
          simpa [Nat.add_assoc, Nat.add_comm 1 i] using this)
      rw [ihx]
      rfl

/-- Every environment either has a first received response within the
5-attempt budget, or makes all 5 attempts raise transport errors. -/
theorem outcomes_cases (outcomes : Nat → AttemptOutcome) :
    (∃ e s j, e < 5 ∧ (∀ i < e, outcomes i = .transportError) ∧
        outcomes e = .response s j) ∨
      (∀ i < 5, outcomes i = .transportError) := by
  by_cases h : ∀ i < 5, outcomes i = .transportError
  · exact Or.inr h
  · left
    push_neg at h
    have hex : ∃ i, i < 5 ∧ outcomes i ≠ .transportError := h
    classical
    let e := Nat.find hex
    have he := Nat.find_spec hex
    refine ⟨e, ?_⟩
    rcases hr : outcomes e with ⟨s, j⟩ | _
    · refine ⟨s, j, he.1, ?_, rfl⟩
      intro i hi
      have := Nat.find_min hex hi
      by_contra hne
      exact this ⟨by omega, hne⟩
    · exact absurd hr he.2

/-- A run of the connect loop that starts already associated exits at
once: the guard is checked before any association attempt. -/
theorem connect_run_connected (outcomes : Nat → Bool) :
    ∀ (fuel a n : Nat), connect_run outcomes true a fuel = some n → n = a := by
  intro fuel
  cases fuel with
  | zero => intro a n h; simp [connect_run] at h
  | succ fuel => intro a n h; simp [connect_run] at h; exact h.symm

/-- Soundness of the connect loop: when a run that starts unassociated
exits after n attempts, the last attempt succeeded and all the earlier
ones failed. -/
theorem connect_run_some_spec (outcomes : Nat → Bool) :
    ∀ (fuel a n : Nat), connect_run outcomes false a fuel = some n →
      a < n ∧ outcomes (n - 1) = true ∧
        ∀ j, a ≤ j → j < n - 1 → outcomes j = false := by
  intro fuel
  induction fuel with
  | zero => intro a n h; simp [connect_run] at h
  | succ fuel ih =>
      intro a n h
      simp only [connect_run, if_neg Bool.false_ne_true] at h
      cases hx : outcomes a with
      | true =>
          rw [hx] at h
          have hn := connect_run_connected outcomes fuel (a + 1) n h
          subst hn
          refine ⟨by omega, by simpa using hx, ?_⟩
          intro j h1 h2
          omega
      | false =>
          rw [hx] at h
          obtain ⟨h1, h2, h3⟩ := ih (a + 1) n h
          refine ⟨by omega, h2, ?_⟩
          intro j hj1 hj2
          rcases Nat.eq_or_lt_of_le hj1 with rfl | hlt
          · exact hx
          · exact h3 j (by omega) hj2

/-- Completeness of the connect loop: however many association
failures precede the first success, the loop reaches it, given enough
fuel — the retry is unconditional and unbounded. -/
theorem connect_run_complete (outcomes : Nat → Bool) :
    ∀ (fuel k a : Nat), (∀ j, a ≤ j → j < k → outcomes j = false) →
      outcomes k = true → a ≤ k → k + 2 ≤ a + fuel →
      connect_run outcomes false a fuel = some (k + 1) := by
  intro fuel
  induction fuel with
  | zero => intro k a _ _ h1 h2; omega
  | succ fuel ih =>
      intro k a hpre hk hak hfu
      show connect_run outcomes (outcomes a) (a + 1) fuel = some (k + 1)
      by_cases hek : a = k
      · subst hek
        rw [hk]
        cases fuel with
        | zero => omega
        | succ fuel => simp [connect_run]
      · have hfa : outcomes a = false := hpre a (le_refl a) (by omega)
        rw [hfa]
        exact ih k (a + 1) (fun j hj1 hj2 => hpre j (by omega) hj2) hk
          (by omega) (by omega)

/-- C2: for every feed, payload and environment, post performs at most
5 transport attempts; and when all 5 attempts raise transport errors,
the budget check makes post give up and return false after exactly 5
attempts. -/
theorem post_at_most_five_attempts (feed payload : String)
    (outcomes : Nat → AttemptOutcome) :
    attemptCount (post_trace feed payload outcomes) ≤ 5 ∧
      ((∀ i < 5, outcomes i = .transportError) →
        post_result feed payload outcomes = .ret false ∧
        attemptCount (post_trace feed payload outcomes) = 5) := by
  rcases outcomes_cases outcomes with ⟨e, s, j, he, hpre, hres⟩ | hall
  · have h1 := post_go_response outcomes e 0 s j (by omega)
      (fun i hi => by simpa using hpre i hi) (by simpa using hres)
    simp only [Nat.zero_add] at h1
    constructor
    · simp [post_trace, post, h1, attemptCount, attemptCount_append,
        attemptCount_err_blocks]
      omega
    · intro hall
      exact absurd (hall e he) (by rw [hres]; simp)
  · have h1 := post_go_all_err outcomes 5 0 (by omega)
      (fun i hi => by simpa using hall i hi)
    simp only [Nat.zero_add] at h1
    constructor
    · simp [post_trace, post, h1, attemptCount, attemptCount_err_blocks]
    · intro _
      constructor
      · simp [post_result, post, h1]
      · simp [post_trace, post, h1, attemptCount, attemptCount_err_blocks]

/-- Witness for C2 at the environment where every attempt raises. -/
theorem post_at_most_five_attempts_witness :
    post_result "temperature" "22" (fun _ => AttemptOutcome.transportError)
        = .ret false ∧
      attemptCount (post_trace "temperature" "22"
        (fun _ => AttemptOutcome.transportError)) = 5 :=
  (post_at_most_five_attempts "temperature" "22"
    (fun _ => AttemptOutcome.transportError)).2 (fun i hi => rfl)

/-- C5: the first received HTTP response, whatever its status code,
ends the retry loop at once: with transport errors at attempts 0..k-1
and a response at attempt k, exactly k+1 attempts happen and no attempt
numbered beyond k appears in the trace. -/
theorem post_stops_on_first_response (feed payload : String)
    (outcomes : Nat → AttemptOutcome) (k s : Nat) (j : Bool)
    (hk : k < 5) (hpre : ∀ i < k, outcomes i = .transportError)
    (hres : outcomes k = .response s j) :
    attemptCount (post_trace feed payload outcomes) = k + 1 ∧
      ∀ m, Event.attempt m ∈ post_trace feed payload outcomes → m ≤ k := by
  have h1 := post_go_response outcomes k 0 s j (by omega)
    (fun i hi => by simpa using hpre i hi) (by simpa using hres)
  simp only [Nat.zero_add] at h1
  constructor
  · simp [post_trace, post, h1, attemptCount, attemptCount_append,
      attemptCount_err_blocks]
  · intro m hm
    simp [post_trace, post, h1, List.mem_append, attempt_mem_err_blocks] at hm
    omega

/-- Witness for C5: one transport error, then a non-200 response. -/
theorem post_stops_on_first_response_witness :
    attemptCount (post_trace "temperature" "22"
        (fun i => if i = 0 then AttemptOutcome.transportError
          else AttemptOutcome.response 404 true)) = 2 ∧
      ∀ m, Event.attempt m ∈ post_trace "temperature" "22"
          (fun i => if i = 0 then AttemptOutcome.transportError
            else AttemptOutcome.response 404 true) → m ≤ 1 :=
  post_stops_on_first_response "temperature" "22" _ 1 404 true (by omega)
    (by decide) (by decide)

/-- C10: when the terminating attempt receives a response whose body
fails to decode as JSON while being logged, the resulting exception is
not a RuntimeError, so the except-clause does not catch it and post
raises instead of returning a boolean — even when the status code was
200. -/
theorem post_json_decode_error_propagates (feed payload : String)
    (outcomes : Nat → AttemptOutcome) (k s : Nat)
    (hk : k < 5) (hpre : ∀ i < k, outcomes i = .transportError)
    (hres : outcomes k = .response s false) :
    post_result feed payload outcomes = .raised := by
  have h1 := post_go_response outcomes k 0 s false (by omega)
    (fun i hi => by simpa using hpre i hi) (by simpa using hres)
  simp only [Nat.zero_add] at h1
  simp [post_result, post, h1]

/-- Witness for C10: a 200 response with an undecodable body. -/
theorem post_json_decode_error_propagates_witness :
    post_result "temperature" "22"
      (fun _ => AttemptOutcome.response 200 false) = .raised :=
  post_json_decode_error_propagates "temperature" "22" _ 0 200 (by omega)
    (by decide) rfl

/-- C4: every transport-error attempt in a post trace is immediately
followed by exactly one radio reset and then exactly one reconnect,
with nothing in between; and the loop goes on: the very next event is
attempt k+1 while the budget is not exhausted, and the trace ends right
after the reconnect exactly when attempt k+1 would exceed the budget. -/
theorem post_transport_error_resets_and_reconnects (feed payload : String)
    (outcomes : Nat → AttemptOutcome) (k : Nat)
    (hmem : Event.attempt k ∈ post_trace feed payload outcomes)
    (herr : outcomes k = .transportError) :
    ∃ pre suf,
      post_trace feed payload outcomes =
        pre ++ Event.attempt k :: Event.reset :: Event.connectCall :: suf ∧
      (k + 1 < 5 → ∃ suf2, suf = Event.attempt (k + 1) :: suf2) ∧
      (k + 1 = 5 → suf = []) := by
  rcases outcomes_cases outcomes with ⟨e, s, j, he, hpre, hres⟩ | hall
  · have h1 := post_go_response outcomes e 0 s j (by omega)
      (fun i hi => by simpa using hpre i hi) (by simpa using hres)
    simp only [Nat.zero_add] at h1
    have hke : k < e := by
      have hmm := hmem
      simp [post_trace, post, h1, List.mem_append,
        attempt_mem_err_blocks] at hmm
      have hne : k ≠ e := by
        intro hc
        rw [hc, hres] at herr
        simp at herr
      omega
    have hsplit := err_blocks_split k e 0 hke
    simp only [Nat.zero_add] at hsplit
    refine ⟨Event.connectCall :: err_blocks 0 k,
      err_blocks (k + 1) (e - k - 1) ++ [Event.attempt e], ?_, ?_, ?_⟩
    · simp [post_trace, post, h1, hsplit]
    · intro h5
      by_cases hlt : k + 1 < e
      · have hrw : e - k - 1 = (e - k - 2) + 1 := by omega
        rw [hrw]
        exact ⟨Event.reset :: Event.connectCall ::
          err_blocks (k + 1 + 1) (e - k - 2) ++ [Event.attempt e], rfl⟩
      · have heq : e = k + 1 := by omega
        have hrw : e - k - 1 = 0 := by omega
        rw [hrw, heq]
        exact ⟨[], rfl⟩
    · intro h5
      exact absurd h5 (by omega)
  · have h1 := post_go_all_err outcomes 5 0 (by omega)
      (fun i hi => by simpa using hall i hi)
    simp only [Nat.zero_add] at h1
    have hk5 : k < 5 := by
      have hmm := hmem
      simp [post_trace, post, h1, attempt_mem_err_blocks] at hmm
      omega
    have hsplit := err_blocks_split k 5 0 hk5
    simp only [Nat.zero_add] at hsplit
    refine ⟨Event.connectCall :: err_blocks 0 k,
      err_blocks (k + 1) (5 - k - 1), ?_, ?_, ?_⟩
    · simp [post_trace, post, h1, hsplit]
    · intro h5
      have hrw : 5 - k - 1 = (5 - k - 2) + 1 := by omega
      rw [hrw]
      exact ⟨Event.reset :: Event.connectCall ::
        err_blocks (k + 1 + 1) (5 - k - 2), rfl⟩
    · intro h5
      have hrw : 5 - k - 1 = 0 := by omega
      rw [hrw]
      rfl

/-- Witness for C4: a transport error at attempt 0, then a response. -/
theorem post_transport_error_resets_and_reconnects_witness :
    ∃ pre suf,
      post_trace "temperature" "22"
          (fun i => if i = 0 then AttemptOutcome.transportError
            else AttemptOutcome.response 200 true) =
        pre ++ Event.attempt 0 :: Event.reset :: Event.connectCall :: suf ∧
      (0 + 1 < 5 → ∃ suf2, suf = Event.attempt (0 + 1) :: suf2) ∧
      (0 + 1 = 5 → suf = []) :=
  post_transport_error_resets_and_reconnects "temperature" "22" _ 0
    (by simp [post_trace, post, post_go]) rfl

/-- C1 (counterexample to the claim as stated): in the environment
where attempt 0 receives a 200 response whose body fails to decode as
JSON, some attempt of the call did receive a response with status code
200, yet post does not return true — it raises — so the biconditional
of the claim fails. -/
theorem post_ret_true_iff_status200_cex :
    ¬ ((post_result "temperature" "22"
          (fun _ => AttemptOutcome.response 200 false) = .ret true) ↔
        ∃ k j, Event.attempt k ∈ post_trace "temperature" "22"
            (fun _ => AttemptOutcome.response 200 false) ∧
          (fun _ => AttemptOutcome.response 200 false) k
            = AttemptOutcome.response 200 j) := by
  intro h
  have h1 := post_go_response (fun _ => AttemptOutcome.response 200 false)
    0 0 200 false (by omega) (by decide) rfl
  simp only [Nat.zero_add] at h1
  have hr := h.mpr ⟨0, false, by simp [post_trace, post, h1, err_blocks], rfl⟩
  simp [post_result, post, h1] at hr

/-- C1 (amended): whenever post returns a boolean at all — that is,
whenever logging the received response body does not raise — it returns
true iff some attempt of the call received an HTTP response with status
code 200; and when the 5-attempt budget is exhausted with every attempt
raising a transport error, post returns false rather than raising. -/
theorem post_ret_true_iff_status200 (feed payload : String)
    (outcomes : Nat → AttemptOutcome) :
    ((∀ i < 5, outcomes i = .transportError) →
        post_result feed payload outcomes = .ret false) ∧
      (∀ b, post_result feed payload outcomes = .ret b →
        (b = true ↔ ∃ k j, Event.attempt k ∈ post_trace feed payload outcomes ∧
            outcomes k = .response 200 j)) := by
  rcases outcomes_cases outcomes with ⟨e, s, j, he, hpre, hres⟩ | hall
  · have h1 := post_go_response outcomes e 0 s j (by omega)
      (fun i hi => by simpa using hpre i hi) (by simpa using hres)
    simp only [Nat.zero_add] at h1
    constructor
    · intro hall
      exact absurd (hall e he) (by rw [hres]; simp)
    · intro b hret
      have hres2 : post_result feed payload outcomes =
          if j then .ret (s == 200) else .raised := by
        simp [post_result, post, h1]
      cases j with
      | false =>
          rw [hret] at hres2
          simp at hres2
      | true =>
          rw [hret] at hres2
          simp at hres2
          constructor
          · intro hb
            refine ⟨e, true, ?_, ?_⟩
            · simp [post_trace, post, h1]
            · rw [hres]
              have hs : s = 200 := by
                rw [hb] at hres2
                simpa using hres2.symm
              rw [hs]
          · rintro ⟨k, j', hkmem, hk200⟩
            have hke : k = e := by
              simp [post_trace, post, h1, List.mem_append,
                attempt_mem_err_blocks] at hkmem
              rcases hkmem with hlt | heq
              · exact absurd hk200 (by rw [hpre k hlt]; simp)
              · exact heq
            rw [hke, hres] at hk200
            have hs : s = 200 := by
              cases hk200
              rfl
            rw [hres2, hs]
            rfl
  · have h1 := post_go_all_err outcomes 5 0 (by omega)
      (fun i hi => by simpa using hall i hi)
    simp only [Nat.zero_add] at h1
    constructor
    · intro _
      simp [post_result, post, h1]
    · intro b hret
      have hb : b = false := by
        have : post_result feed payload outcomes = .ret false := by
          simp [post_result, post, h1]
        rw [hret] at this
        cases this
        rfl
      constructor
      · intro hc
        rw [hb] at hc
        cases hc
      · rintro ⟨k, j', hkmem, hk200⟩
        have hk5 : k < 5 := by
          simp [post_trace, post, h1, attempt_mem_err_blocks] at hkmem
          omega
        exact absurd hk200 (by rw [hall k hk5]; simp)

/-- Witness for C1 (amended): attempt 0 receives a 200 response with a
decodable body, so post returns true and the 200 response is in the
trace. -/
theorem post_ret_true_iff_status200_witness :
    ∃ k j, Event.attempt k ∈ post_trace "temperature" "22"
        (fun _ => AttemptOutcome.response 200 true) ∧
      (fun _ => AttemptOutcome.response 200 true) k
        = AttemptOutcome.response 200 j :=
  ((post_ret_true_iff_status200 "temperature" "22"
      (fun _ => AttemptOutcome.response 200 true)).2 true
    (by simp [post_result, post, post_go])).mp rfl

/-- C6: the connect loop (over any fuel bound on the observed
iterations) returns only when an association attempt has succeeded —
never while the radio is unassociated — and conversely, whatever finite
number of association failures precede the first success, it retries
through all of them and returns right after the succeeding attempt,
with no attempt limit. -/
theorem connect_terminates_iff_association (outcomes : Nat → Bool)
    (fuel : Nat) :
    (∀ n, connect_run outcomes false 0 fuel = some n →
        0 < n ∧ outcomes (n - 1) = true ∧ ∀ j < n - 1, outcomes j = false) ∧
      (∀ k, (∀ j < k, outcomes j = false) → outcomes k = true →
        k + 2 ≤ fuel → connect_run outcomes false 0 fuel = some (k + 1)) := by
  constructor
  · intro n h
    obtain ⟨h1, h2, h3⟩ := connect_run_some_spec outcomes fuel 0 n h
    exact ⟨h1, h2, fun j hj => h3 j (Nat.zero_le j) hj⟩
  · intro k hpre hk hfu
    exact connect_run_complete outcomes fuel k 0 (fun j _ hj => hpre j hj) hk
      (Nat.zero_le k) (by omega)

/-- Witness for C6: association fails twice, then succeeds; connect
returns after exactly 3 attempts. -/
theorem connect_terminates_iff_association_witness :
    connect_run (fun i => i == 2) false 0 4 = some 3 :=
  (connect_terminates_iff_association (fun i => i == 2) 4).2 2
    (by decide) (by decide) (by decide)

/-- C9: when the radio already reports an associated state, the guard
of the connect loop fails on entry, so connect returns at once having
made zero association attempts, whatever the environment — nothing is
reset or reconnected. -/
theorem connect_noop_when_connected (outcomes : Nat → Bool) (fuel : Nat)
    (h : 0 < fuel) : connect_run outcomes true 0 fuel = some 0 := by
  cases fuel with
  | zero => omega
  | succ fuel => simp [connect_run]

/-- Witness for C9 at fuel 1. -/
theorem connect_noop_when_connected_witness :
    connect_run (fun _ => false) true 0 1 = some 0 :=
  connect_noop_when_connected (fun _ => false) 1 (by decide)

/-- C3 (the code contradicts the claim): on an empty response body the
split yields a single empty field, so reading times[1] raises
IndexError, which the except-clause — it catches only KeyError — does
not intercept: refresh_local_time dies with a bare IndexError and the
guidance-bearing lookup error (keyError true in this model) is never
produced. -/
theorem refresh_empty_body_raises_index_error :
    refresh_local_time "" = .error .indexError ∧
      PyError.indexError ≠ PyError.keyError true :=
  ⟨rfl, by decide⟩

/-- C7: the sample time-service response parses to the expected
calendar tuple, which is both written to the RTC and returned. -/
theorem refresh_parses_sample_timestamp :
    refresh_local_time "2023-05-01 14:30:00.123 121 1 +0000 UTC" =
      .ok { rtcWrite := { tm_year := 2023, tm_mon := 5, tm_mday := 1,
                          tm_hour := 14, tm_min := 30, tm_sec := 0,
                          tm_wday := 1, tm_yday := 121, tm_isdst := none },
            returned := { tm_year := 2023, tm_mon := 5, tm_mday := 1,
                          tm_hour := 14, tm_min := 30, tm_sec := 0,
                          tm_wday := 1, tm_yday := 121, tm_isdst := none } } :=
  rfl

/-- C8: the module-level startup check raises its fatal RuntimeError —
preventing the client from being constructed — exactly when at least
one of the four required configuration values is missing; with all four
present it does not raise. -/
theorem startup_raises_iff_missing_config
    (ssid password aio_username aio_key : Option String) :
    startup_raises ssid password aio_username aio_key = true ↔
      (ssid = none ∨ password = none ∨ aio_username = none ∨
        aio_key = none) := by
  simp [startup_raises, List.any_cons, List.any_nil, Bool.or_eq_true,
    beq_iff_eq]

end Aio

